import Mathlib

/-
Verification of the landmark-registration RANSAC design
(midas-journal-769).  The repository ships the estimator header
(itkLandmarkRegistrationEstimator.h, declarations only) and the test
driver (itkRansacTest_LandmarkRegistration.cxx).  The implementation
files (itkRANSAC.hxx, itkLandmarkRegistrationEstimator.hxx) are not part
of the sources available here, so the engine and the estimator bodies
are modelled from the design document; the test driver code
(GenerateData and the Compute call site) is embedded from the source.
Doubles are modelled as rationals; the square root and logarithm of the
reported metrics and of the adaptive iteration bound live in the reals.
-/

namespace ITKRansac

open Classical

/-- A 3-D point with rational coordinates, modelling itk::Point<double,3>. -/
structure Point3 where
  x : ℚ
  y : ℚ
  z : ℚ

/-- A correspondence, modelling itk::Point<double,6>: two 3-D points packed
into one 6-D coordinate vector (fixed point in coordinates 0-2, moving
point in coordinates 3-5), as built by GenerateData in the test driver. -/
structure Point6 where
  x0 : ℚ
  x1 : ℚ
  x2 : ℚ
  x3 : ℚ
  x4 : ℚ
  x5 : ℚ

/-- Default correspondence used for out-of-range list access. -/
def dummyPoint6 : Point6 := ⟨0, 0, 0, 0, 0, 0⟩

/-- The fixed half of a correspondence: coordinates 0-2. -/
def fixedHalf (c : Point6) : Point3 := ⟨c.x0, c.x1, c.x2⟩

/-- The moving half of a correspondence: coordinates 3-5. -/
def movingHalf (c : Point6) : Point3 := ⟨c.x3, c.x4, c.x5⟩

/-- Packing of a fixed point (coordinates 0-2) and a moving point
(coordinates 3-5) into one correspondence, as the test driver does with
p0[0..2] := fixed and p0[3..5] := moving. -/
def pack (a b : Point3) : Point6 := ⟨a.x, a.y, a.z, b.x, b.y, b.z⟩

/-- Squared Euclidean distance between two 3-D points. -/
def sqDist3 (a b : Point3) : ℚ :=
  (a.x - b.x) ^ 2 + (a.y - b.y) ^ 2 + (a.z - b.z) ^ 2

/-- Coordinate access on the fixed half, indexed by Fin 3. -/
def fixCoord (c : Point6) (i : Fin 3) : ℚ :=
  if i = 0 then c.x0 else if i = 1 then c.x1 else c.x2

/-- Coordinate access on the moving half, indexed by Fin 3. -/
def movCoord (c : Point6) (i : Fin 3) : ℚ :=
  if i = 0 then c.x3 else if i = 1 then c.x4 else c.x5

/-- Modelled from the spec: the capability interface of the missing
ParametersEstimator hierarchy (itkParametersEstimator and the body of
itkLandmarkRegistrationEstimator are not under src); per design note 9.1
it is the pair of a Fit function returning a ParameterVector (empty on
failure) and the data needed by the Agree predicate: a squared-residual
function and the squared inlier threshold deltaSquared. -/
structure Estimator where
  fit : List Point6 → List ℚ
  residual : List ℚ → Point6 → ℚ
  deltaSquared : ℚ

/-- Modelled from the spec: the Agree predicate of the missing
LandmarkRegistrationEstimator implementation; true iff the squared
residual of the correspondence under the candidate parameters is at most
deltaSquared. -/
def Estimator.Agree (est : Estimator) (params : List ℚ) (c : Point6) : Bool :=
  decide (est.residual params c ≤ est.deltaSquared)

/-- Modelled from the spec: SetDelta of the missing estimator
implementation; the inlier distance threshold is stored internally as its
square. -/
def SetDelta (est : Estimator) (delta : ℚ) : Estimator :=
  { est with deltaSquared := delta * delta }

/-- Modelled from the spec: GetDelta of the missing estimator
implementation; recovers the (non-negative) threshold from its stored
square. -/
noncomputable def GetDelta (est : Estimator) : ℝ :=
  Real.sqrt ((est.deltaSquared : ℚ) : ℝ)

/-- Centroid coordinate of the fixed halves of a correspondence list. -/
def centroidFix (corrs : List Point6) (j : Fin 3) : ℚ :=
  (corrs.map fun c => fixCoord c j).sum / (corrs.length : ℚ)

/-- Centroid coordinate of the moving halves of a correspondence list. -/
def centroidMov (corrs : List Point6) (i : Fin 3) : ℚ :=
  (corrs.map fun c => movCoord c i).sum / (corrs.length : ℚ)

/-- Modelled from the spec: the cross-covariance matrix formed by the
missing TransformFitter (itkLandmarkRegistrationEstimator.hxx): entry
(i, j) sums, over the correspondences, the product of the centered moving
coordinate i and the centered fixed coordinate j. -/
def ccov (corrs : List Point6) (i j : Fin 3) : ℚ :=
  (corrs.map fun c =>
    (movCoord c i - centroidMov corrs i) * (fixCoord c j - centroidFix corrs j)).sum

/-- Determinant of a 3 by 3 matrix given by its entries. -/
def det3 (m : Fin 3 → Fin 3 → ℚ) : ℚ :=
  m 0 0 * (m 1 1 * m 2 2 - m 1 2 * m 2 1)
    - m 0 1 * (m 1 0 * m 2 2 - m 1 2 * m 2 0)
    + m 0 2 * (m 1 0 * m 2 1 - m 1 1 * m 2 0)

/-- Modelled from the spec: TransformFitter.Fit of the missing
itkLandmarkRegistrationEstimator.hxx.  The degeneracy behaviour required
by the design is modelled explicitly: when the cross-covariance matrix is
rank-deficient (zero determinant, as for collinear or coincident points)
the result is the empty ParameterVector; the SVD-based extraction of
rotation, scale and translation on non-degenerate input is abstracted as
the solve parameter. -/
def Fit (solve : List Point6 → List ℚ) (corrs : List Point6) : List ℚ :=
  if det3 (ccov corrs) = 0 then [] else solve corrs

/-- Modelled from the spec: the squared residual of the missing landmark
estimator; the fitted transform is applied to the fixed half and the
squared Euclidean distance to the moving half is taken.  The application
of the Similarity3DTransform to a point (missing implementation) is
abstracted as the applyT parameter. -/
def landmarkResidual (applyT : List ℚ → Point3 → Point3) (params : List ℚ) (c : Point6) : ℚ :=
  sqDist3 (applyT params (fixedHalf c)) (movingHalf c)

/-- Modelled from the spec: the LandmarkRegistrationEstimator as an
instance of the capability interface, from its missing implementation
file: Fit with the degeneracy check, the apply-and-square-distance
residual, and a squared threshold. -/
def LandmarkRegistrationEstimator (applyT : List ℚ → Point3 → Point3)
    (solve : List Point6 → List ℚ) (deltaSq : ℚ) : Estimator :=
  { fit := Fit solve, residual := landmarkResidual applyT, deltaSquared := deltaSq }

/-- Modelled from the spec: dereferencing of a pointer array, for the
pointer-array overloads of Estimate and LeastSquaresEstimate declared in
itkLandmarkRegistrationEstimator.h whose bodies are missing.  A heap maps
addresses to correspondences; the overload reads each pointed-to value in
order. -/
def derefAll (heap : ℕ → Point6) : List ℕ → List Point6
  | [] => []
  | i :: rest => heap i :: derefAll heap rest

/-- Modelled from the spec: the value-array overload of Estimate (missing
implementation); it runs the estimation core on the given values. -/
def Estimate (core : List Point6 → List ℚ) (data : List Point6) : List ℚ :=
  core data

/-- Modelled from the spec: the pointer-array overload of Estimate
(missing implementation); it dereferences the pointers and runs the same
estimation core. -/
def EstimatePtr (core : List Point6 → List ℚ) (heap : ℕ → Point6) (ptrs : List ℕ) : List ℚ :=
  core (derefAll heap ptrs)

/-- Modelled from the spec: the value-array overload of
LeastSquaresEstimate (missing implementation). -/
def LeastSquaresEstimate (core : List Point6 → List ℚ) (data : List Point6) : List ℚ :=
  core data

/-- Modelled from the spec: the pointer-array overload of
LeastSquaresEstimate (missing implementation). -/
def LeastSquaresEstimatePtr (core : List Point6 → List ℚ) (heap : ℕ → Point6)
    (ptrs : List ℕ) : List ℚ :=
  core (derefAll heap ptrs)

/-- Modelled from the spec: the configuration of the missing RANSAC
engine (itkRANSAC.hxx): the minimal sample size and the hard iteration
cap. -/
structure RansacConfig where
  minimalForEstimate : ℕ
  maxIteration : ℕ

/-- Modelled from the spec: the EstimatorState of the missing RANSAC
engine: current best ParameterVector, current best InlierSet (as indices
into the working set), the accumulated sum of squared inlier residuals of
the best model, the number of iterations run, and the adaptively computed
iteration bound. -/
structure RState where
  bestParams : List ℚ
  bestInliers : List ℕ
  bestSumSq : ℚ
  iterations : ℕ
  bound : ℝ

/-- Modelled from the spec: the minimal sample drawn at a given
iteration; the injected random stream yields the chosen indices into the
sampling data set. -/
def sampleAt (data : List Point6) (stream : ℕ → List ℕ) (iter : ℕ) : List Point6 :=
  (stream iter).map fun i => data.getD i dummyPoint6

/-- Modelled from the spec: the InlierSet of a candidate model: the
indices of the working set whose correspondences Agree with the
parameters. -/
def inlierIndices (est : Estimator) (params : List ℚ) (all : List Point6) : List ℕ :=
  (List.range all.length).filter fun i => est.Agree params (all.getD i dummyPoint6)

/-- Modelled from the spec: the accumulated sum of squared residuals of
the inliers of a candidate model. -/
def inlierSumSq (est : Estimator) (params : List ℚ) (all : List Point6) : ℚ :=
  ((inlierIndices est params all).map fun i => est.residual params (all.getD i dummyPoint6)).sum

/-- Modelled from the spec: the standard RANSAC adaptive iteration bound
N = log(1 - p) / log(1 - w ^ k) of the missing engine, clamped to the
interval from 1 to maxIteration. -/
noncomputable def adaptiveBound (p w : ℝ) (k maxIt : ℕ) : ℝ :=
  max 1 (min (Real.log (1 - p) / Real.log (1 - w ^ k)) (maxIt : ℝ))

/-- Modelled from the spec: one iteration of the missing RANSAC engine
loop.  Sampling uses the injected stream; a degenerate fit (empty
ParameterVector) discards the iteration with zero support; otherwise the
candidate is scored on the full working set (data plus agreeData) and, if
its inlier count exceeds the current best, the best model is replaced and
the adaptive bound recomputed with the new best inlier fraction. -/
noncomputable def ransacStep (est : Estimator) (cfg : RansacConfig) (p : ℚ)
    (data agreeData : List Point6) (stream : ℕ → List ℕ) (st : RState) : RState :=
  let sample := sampleAt data stream st.iterations
  let params := est.fit sample
  if params = [] then
    { st with iterations := st.iterations + 1 }
  else
    let all := data ++ agreeData
    let inl := inlierIndices est params all
    if st.bestInliers.length < inl.length then
      { bestParams := params
        bestInliers := inl
        bestSumSq := inlierSumSq est params all
        iterations := st.iterations + 1
        bound := adaptiveBound ((p : ℚ) : ℝ) ((inl.length : ℝ) / (all.length : ℝ))
          cfg.minimalForEstimate cfg.maxIteration }
    else
      { st with iterations := st.iterations + 1 }

/-- Modelled from the spec: the termination condition of the missing
engine loop: the iterations run have reached the adaptive bound or the
hard cap. -/
def stopCond (cfg : RansacConfig) (st : RState) : Prop :=
  st.bound ≤ (st.iterations : ℝ) ∨ cfg.maxIteration ≤ st.iterations

/-- Modelled from the spec: the initial EstimatorState of the missing
engine: no best model yet and the bound at the hard cap. -/
noncomputable def initState (cfg : RansacConfig) : RState :=
  ⟨[], [], 0, 0, (cfg.maxIteration : ℝ)⟩

/-- Modelled from the spec: the missing engine main loop, fuelled by the
hard iteration cap; it stops as soon as the termination condition holds
and otherwise performs one iteration. -/
noncomputable def runLoop (est : Estimator) (cfg : RansacConfig) (p : ℚ)
    (data agreeData : List Point6) (stream : ℕ → List ℕ) : ℕ → RState → RState
  | 0, st => st
  | fuel + 1, st =>
    if stopCond cfg st then st
    else runLoop est cfg p data agreeData stream fuel
      (ransacStep est cfg p data agreeData stream st)

/-- Modelled from the spec: the EstimatorState at termination of the
missing engine loop, starting from the initial state with fuel equal to
the hard cap. -/
noncomputable def finalState (est : Estimator) (cfg : RansacConfig) (p : ℚ)
    (data agreeData : List Point6) (stream : ℕ → List ℕ) : RState :=
  runLoop est cfg p data agreeData stream cfg.maxIteration (initState cfg)

/-- Modelled from the spec: Compute of the missing RANSAC engine.  When
no model with at least minimalForEstimate inliers was found (or the best
InlierSet is empty) it returns the empty ParameterVector and the failure
indicator none.  On success it refines the parameters with one final
least-squares Fit over the entire best InlierSet and reports the
percentage of data used and the inlier root-mean-square error. -/
noncomputable def Compute (est : Estimator) (cfg : RansacConfig) (p : ℚ)
    (data agreeData : List Point6) (stream : ℕ → List ℕ) : List ℚ × Option (ℚ × ℝ) :=
  if (finalState est cfg p data agreeData stream).bestInliers.length < cfg.minimalForEstimate
      ∨ (finalState est cfg p data agreeData stream).bestInliers = [] then
    ([], none)
  else
    (est.fit ((finalState est cfg p data agreeData stream).bestInliers.map
        fun i => (data ++ agreeData).getD i dummyPoint6),
     some (((finalState est cfg p data agreeData stream).bestInliers.length : ℚ) / (data.length : ℚ),
       Real.sqrt ((((finalState est cfg p data agreeData stream).bestSumSq : ℚ) : ℝ) /
         ((finalState est cfg p data agreeData stream).bestInliers.length : ℝ))))

/-- Point access on a 3-D mesh given as a point list, as mesh GetPoint in
the test driver (out-of-range access yields the default point). -/
def getPt3 (l : List Point3) (i : ℕ) : Point3 := l.getD i ⟨0, 0, 0⟩

/-- The pair-building loop of GenerateData in the test driver: for i from
0 to n-1, push the packing of point i of the first mesh (fixed half) and
point i of the second mesh (moving half). -/
def buildPairs (a b : List Point3) : ℕ → List Point6
  | 0 => []
  | n + 1 => buildPairs a b n ++ [pack (getPt3 a n) (getPt3 b n)]

/-- GenerateData of the test driver (itkRansacTest_LandmarkRegistration.cxx):
mesh1 is the fixed feature mesh, mesh2 the moving feature mesh, mesh1All
the full fixed mesh and mesh2All the full moving mesh.  data pairs the
feature meshes over the fixed feature count; an index array over the
larger feature count is shuffled (the shuffle is injected as a parameter)
and then never used; agreeData pairs the full meshes over the smaller
feature count in original index order. -/
def GenerateData (movingFeature fixedFeature movingAll fixedAll : List Point3)
    (shuffle : List ℕ → List ℕ) : List Point6 × List Point6 :=
  let mesh1 := fixedFeature
  let mesh2 := movingFeature
  let mesh1All := fixedAll
  let mesh2All := movingAll
  let data := buildPairs mesh1 mesh2 mesh1.length
  let minCount := min mesh1.length mesh2.length
  let maxCount := max mesh1.length mesh2.length
  let _indexArray := shuffle (List.range maxCount)
  let agreeData := buildPairs mesh1All mesh2All minCount
  (data, agreeData)

/-- Concrete correspondence used by the witnesses. -/
def cPoint : Point6 := ⟨0, 0, 0, 0, 0, 0⟩

/-- Concrete one-correspondence data set used by the witnesses. -/
def cData : List Point6 := [cPoint]

/-- Concrete random stream used by the witnesses: always index 0. -/
def cStream : ℕ → List ℕ := fun _ => [0]

/-- Concrete estimator whose fit always succeeds and whose residual is
zero, so every correspondence agrees. -/
def cEstOk : Estimator := ⟨fun _ => [1], fun _ _ => 0, 0⟩

/-- Concrete estimator whose fit always succeeds but whose residual
exceeds the threshold, so no correspondence agrees (all outliers). -/
def cEstOut : Estimator := ⟨fun _ => [1], fun _ _ => 1, 0⟩

/-- Concrete estimator whose fit is always degenerate (empty
ParameterVector). -/
def cEstFail : Estimator := ⟨fun _ => [], fun _ _ => 0, 0⟩

/-- Concrete solver for the non-degenerate branch of Fit, used by the
witnesses. -/
def cSolve : List Point6 → List ℚ := fun _ => [7]

/-- Concrete correspondence with distinct coordinates, used by the
degeneracy witness. -/
def cP6 : Point6 := ⟨1, 2, 3, 4, 5, 6⟩

/-- Concrete singleton correspondence list (a single point is coincident
with itself, hence degenerate). -/
def cCorrs : List Point6 := [cP6]

/-- Concrete configuration with minimal sample size 1 and hard cap 1. -/
def cCfg1 : RansacConfig := ⟨1, 1⟩

/-- Concrete configuration with minimal sample size 3 and hard cap 1. -/
def cCfg3 : RansacConfig := ⟨3, 1⟩

/-- Concrete engine state used by the witnesses. -/
noncomputable def cSt : RState := ⟨[], [], 0, 0, 5⟩

/-- The loop with no fuel returns the state unchanged. -/
theorem runLoop_zero (est : Estimator) (cfg : RansacConfig) (p : ℚ)
    (data agreeData : List Point6) (stream : ℕ → List ℕ) (st : RState) :
    runLoop est cfg p data agreeData stream 0 st = st := rfl

/-- Unfolding of the loop with positive fuel. -/
theorem runLoop_succ (est : Estimator) (cfg : RansacConfig) (p : ℚ)
    (data agreeData : List Point6) (stream : ℕ → List ℕ) (fuel : ℕ) (st : RState) :
    runLoop est cfg p data agreeData stream (fuel + 1) st =
      if stopCond cfg st then st
      else runLoop est cfg p data agreeData stream fuel
        (ransacStep est cfg p data agreeData stream st) := rfl

/-- Once the termination condition holds, the loop is the identity. -/
theorem runLoop_stop (est : Estimator) (cfg : RansacConfig) (p : ℚ)
    (data agreeData : List Point6) (stream : ℕ → List ℕ) (st : RState)
    (h : stopCond cfg st) :
    ∀ fuel : ℕ, runLoop est cfg p data agreeData stream fuel st = st := by
  intro fuel
  cases fuel with
  | zero => rfl
  | succ n => rw [runLoop_succ, if_pos h]

/-- One engine iteration never shrinks the best InlierSet. -/
theorem step_len_mono (est : Estimator) (cfg : RansacConfig) (p : ℚ)
    (data agreeData : List Point6) (stream : ℕ → List ℕ) (st : RState) :
    st.bestInliers.length ≤
      (ransacStep est cfg p data agreeData stream st).bestInliers.length := by
  simp only [ransacStep]
  split_ifs with h1 h2
  · exact le_refl _
  · exact le_of_lt h2
  · exact le_refl _

/-- Running the loop never shrinks the best InlierSet. -/
theorem runLoop_len_mono (est : Estimator) (cfg : RansacConfig) (p : ℚ)
    (data agreeData : List Point6) (stream : ℕ → List ℕ) :
    ∀ (fuel : ℕ) (st : RState),
      st.bestInliers.length ≤
        (runLoop est cfg p data agreeData stream fuel st).bestInliers.length := by
  intro fuel
  induction fuel with
  | zero => intro st; exact le_refl _
  | succ n ih =>
    intro st
    rw [runLoop_succ]
    by_cases h : stopCond cfg st
    · rw [if_pos h]
    · rw [if_neg h]
      exact le_trans (step_len_mono est cfg p data agreeData stream st) (ih _)

/-- Splitting of the loop fuel: running i + m steps is running i steps and
then m more from the reached state. -/
theorem runLoop_add (est : Estimator) (cfg : RansacConfig) (p : ℚ)
    (data agreeData : List Point6) (stream : ℕ → List ℕ) :
    ∀ (i m : ℕ) (st : RState),
      runLoop est cfg p data agreeData stream (i + m) st =
        runLoop est cfg p data agreeData stream m
          (runLoop est cfg p data agreeData stream i st) := by
  intro i
  induction i with
  | zero => intro m st; rw [Nat.zero_add, runLoop_zero]
  | succ n ih =>
    intro m st
    have hshift : n + 1 + m = n + m + 1 := by omega
    rw [hshift, runLoop_succ, runLoop_succ]
    by_cases h : stopCond cfg st
    · rw [if_pos h, if_pos h, runLoop_stop est cfg p data agreeData stream st h]
    · rw [if_neg h, if_neg h, ih]

/-- Claim C6: within one Compute call, the recorded best InlierSet size is
monotonically non-decreasing across iterations: after j loop steps it is
at least what it was after i loop steps, for i at most j, because the best
model is replaced only when the new inlier count exceeds the current
best. -/
theorem c6_best_inliers_monotone (est : Estimator) (cfg : RansacConfig) (p : ℚ)
    (data agreeData : List Point6) (stream : ℕ → List ℕ) (st : RState) (i j : ℕ)
    (hij : i ≤ j) :
    (runLoop est cfg p data agreeData stream i st).bestInliers.length ≤
      (runLoop est cfg p data agreeData stream j st).bestInliers.length := by
  obtain ⟨m, rfl⟩ := Nat.exists_eq_add_of_le hij
  rw [runLoop_add]
  exact runLoop_len_mono est cfg p data agreeData stream m _

/-- Witness for claim C6 at a concrete instance. -/
theorem c6_best_inliers_monotone_witness :
    (0 : ℕ) ≤ 1 ∧
    (runLoop cEstOk cCfg1 (99 / 100) cData [] cStream 0 cSt).bestInliers.length ≤
      (runLoop cEstOk cCfg1 (99 / 100) cData [] cStream 1 cSt).bestInliers.length :=
  ⟨by decide,
   c6_best_inliers_monotone cEstOk cCfg1 (99 / 100) cData [] cStream cSt 0 1 (by decide)⟩

/-- Claim C2: an iteration whose inlier count exceeds the current best
recomputes the iteration bound as log(1 - p) / log(1 - w ^ k) with w the
new best inlier fraction and k the minimal sample size, clamped to the
interval from 1 to maxIteration, and the loop terminates as soon as the
iterations run reach the bound or the hard cap. -/
theorem c2_adaptive_bound (est : Estimator) (cfg : RansacConfig) (p : ℚ)
    (data agreeData : List Point6) (stream : ℕ → List ℕ) (st : RState)
    (hmax : 1 ≤ cfg.maxIteration)
    (hfit : est.fit (sampleAt data stream st.iterations) ≠ [])
    (hcount : st.bestInliers.length <
      (inlierIndices est (est.fit (sampleAt data stream st.iterations))
        (data ++ agreeData)).length) :
    (ransacStep est cfg p data agreeData stream st).bound =
      max 1 (min (Real.log (1 - (p : ℝ)) /
        Real.log (1 - (((inlierIndices est (est.fit (sampleAt data stream st.iterations))
            (data ++ agreeData)).length : ℝ) / ((data ++ agreeData).length : ℝ))
          ^ cfg.minimalForEstimate)) (cfg.maxIteration : ℝ)) ∧
    (1 : ℝ) ≤ (ransacStep est cfg p data agreeData stream st).bound ∧
    (ransacStep est cfg p data agreeData stream st).bound ≤ (cfg.maxIteration : ℝ) ∧
    ∀ (fuel : ℕ) (st2 : RState),
      st2.bound ≤ (st2.iterations : ℝ) ∨ cfg.maxIteration ≤ st2.iterations →
      runLoop est cfg p data agreeData stream fuel st2 = st2 := by
  have hb : (ransacStep est cfg p data agreeData stream st).bound =
      adaptiveBound (p : ℝ)
        (((inlierIndices est (est.fit (sampleAt data stream st.iterations))
            (data ++ agreeData)).length : ℝ) / ((data ++ agreeData).length : ℝ))
        cfg.minimalForEstimate cfg.maxIteration := by
    simp only [ransacStep]
    rw [if_neg hfit, if_pos hcount]
  refine ⟨?_, ?_, ?_, ?_⟩
  · rw [hb]; rfl
  · rw [hb]; exact le_max_left 1 _
  · rw [hb]
    exact max_le (by exact_mod_cast hmax) (min_le_right _ _)
  · intro fuel st2 h
    exact runLoop_stop est cfg p data agreeData stream st2 h fuel

/-- Witness for claim C2 at a concrete instance. -/
theorem c2_adaptive_bound_witness :
    1 ≤ cCfg1.maxIteration ∧
    cEstOk.fit (sampleAt cData cStream cSt.iterations) ≠ [] ∧
    cSt.bestInliers.length <
      (inlierIndices cEstOk (cEstOk.fit (sampleAt cData cStream cSt.iterations))
        (cData ++ [])).length ∧
    ((ransacStep cEstOk cCfg1 (99 / 100) cData [] cStream cSt).bound =
      max 1 (min (Real.log (1 - ((99 / 100 : ℚ) : ℝ)) /
        Real.log (1 - (((inlierIndices cEstOk
            (cEstOk.fit (sampleAt cData cStream cSt.iterations))
            (cData ++ [])).length : ℝ) / ((cData ++ []).length : ℝ))
          ^ cCfg1.minimalForEstimate)) (cCfg1.maxIteration : ℝ)) ∧
    (1 : ℝ) ≤ (ransacStep cEstOk cCfg1 (99 / 100) cData [] cStream cSt).bound ∧
    (ransacStep cEstOk cCfg1 (99 / 100) cData [] cStream cSt).bound ≤
      (cCfg1.maxIteration : ℝ) ∧
    ∀ (fuel : ℕ) (st2 : RState),
      st2.bound ≤ (st2.iterations : ℝ) ∨ cCfg1.maxIteration ≤ st2.iterations →
      runLoop cEstOk cCfg1 (99 / 100) cData [] cStream fuel st2 = st2) :=
  ⟨by decide, by decide, by decide,
   c2_adaptive_bound cEstOk cCfg1 (99 / 100) cData [] cStream cSt
     (by decide) (by decide) (by decide)⟩

/-- One engine iteration preserves the invariant that a non-empty best
InlierSet carries the sum of squared inlier residuals of the best
parameters over the working set. -/
theorem step_sumsq_inv (est : Estimator) (cfg : RansacConfig) (p : ℚ)
    (data agreeData : List Point6) (stream : ℕ → List ℕ) (st : RState)
    (h : st.bestInliers ≠ [] →
      st.bestSumSq = inlierSumSq est st.bestParams (data ++ agreeData)) :
    (ransacStep est cfg p data agreeData stream st).bestInliers ≠ [] →
      (ransacStep est cfg p data agreeData stream st).bestSumSq =
        inlierSumSq est (ransacStep est cfg p data agreeData stream st).bestParams
          (data ++ agreeData) := by
  simp only [ransacStep]
  split_ifs with h1 h2
  · exact h
  · intro _; rfl
  · exact h

/-- The loop preserves the sum-of-squares invariant. -/
theorem runLoop_sumsq_inv (est : Estimator) (cfg : RansacConfig) (p : ℚ)
    (data agreeData : List Point6) (stream : ℕ → List ℕ) :
    ∀ (fuel : ℕ) (st : RState),
      (st.bestInliers ≠ [] →
        st.bestSumSq = inlierSumSq est st.bestParams (data ++ agreeData)) →
      ((runLoop est cfg p data agreeData stream fuel st).bestInliers ≠ [] →
        (runLoop est cfg p data agreeData stream fuel st).bestSumSq =
          inlierSumSq est (runLoop est cfg p data agreeData stream fuel st).bestParams
            (data ++ agreeData)) := by
  intro fuel
  induction fuel with
  | zero => intro st h; exact h
  | succ n ih =>
    intro st h
    rw [runLoop_succ]
    by_cases hs : stopCond cfg st
    · rw [if_pos hs]; exact h
    · rw [if_neg hs]
      exact ih _ (step_sumsq_inv est cfg p data agreeData stream st h)

/-- At termination, a non-empty best InlierSet carries the sum of squared
inlier residuals of the best parameters. -/
theorem finalState_sumsq (est : Estimator) (cfg : RansacConfig) (p : ℚ)
    (data agreeData : List Point6) (stream : ℕ → List ℕ)
    (hne : (finalState est cfg p data agreeData stream).bestInliers ≠ []) :
    (finalState est cfg p data agreeData stream).bestSumSq =
      inlierSumSq est (finalState est cfg p data agreeData stream).bestParams
        (data ++ agreeData) := by
  have hinit : (initState cfg).bestInliers ≠ [] →
      (initState cfg).bestSumSq = inlierSumSq est (initState cfg).bestParams
        (data ++ agreeData) := fun h => absurd rfl h
  exact runLoop_sumsq_inv est cfg p data agreeData stream cfg.maxIteration
    (initState cfg) hinit hne

/-- Claim C1: when Compute succeeds (a best model with at least
minimalForEstimate inliers, non-empty InlierSet), it returns the pair of
percentageOfDataUsed, the best inlier count divided by the data size, and
inlierRMSE, the square root of the sum of squared inlier residuals
divided by the best inlier count, and the returned ParameterVector is the
result of one final least-squares Fit over the entire best InlierSet. -/
theorem c1_success_report (est : Estimator) (cfg : RansacConfig) (p : ℚ)
    (data agreeData : List Point6) (stream : ℕ → List ℕ)
    (hk : cfg.minimalForEstimate ≤
      (finalState est cfg p data agreeData stream).bestInliers.length)
    (hne : (finalState est cfg p data agreeData stream).bestInliers ≠ []) :
    Compute est cfg p data agreeData stream =
      (est.fit ((finalState est cfg p data agreeData stream).bestInliers.map
          fun i => (data ++ agreeData).getD i dummyPoint6),
       some (((finalState est cfg p data agreeData stream).bestInliers.length : ℚ) /
           (data.length : ℚ),
         Real.sqrt (((inlierSumSq est
             (finalState est cfg p data agreeData stream).bestParams
             (data ++ agreeData) : ℚ) : ℝ) /
           ((finalState est cfg p data agreeData stream).bestInliers.length : ℝ)))) := by
  have hcond : ¬((finalState est cfg p data agreeData stream).bestInliers.length <
      cfg.minimalForEstimate ∨
      (finalState est cfg p data agreeData stream).bestInliers = []) := by
    push_neg
    exact ⟨hk, hne⟩
  rw [Compute, if_neg hcond, finalState_sumsq est cfg p data agreeData stream hne]

/-- Evaluation of the loop on the all-inlier witness instance: one
iteration finds the single correspondence as the best InlierSet. -/
theorem finalState_cEstOk_inliers :
    (finalState cEstOk cCfg1 (99 / 100) cData [] cStream).bestInliers = [0] := by
  have hstop : ¬ stopCond cCfg1 (initState cCfg1) := by
    simp [stopCond, initState, cCfg1]
  have hfitne : ¬(cEstOk.fit (sampleAt cData cStream (initState cCfg1).iterations) = []) := by
    decide
  have hcnt : (initState cCfg1).bestInliers.length <
      (inlierIndices cEstOk (cEstOk.fit (sampleAt cData cStream (initState cCfg1).iterations))
        (cData ++ [])).length := by
    decide
  show (runLoop cEstOk cCfg1 (99 / 100) cData [] cStream 1 (initState cCfg1)).bestInliers = [0]
  rw [runLoop_succ, if_neg hstop, runLoop_zero]
  simp only [ransacStep]
  rw [if_neg hfitne, if_pos hcnt]
  decide

/-- Witness for claim C1 at a concrete instance. -/
theorem c1_success_report_witness :
    cCfg1.minimalForEstimate ≤
      (finalState cEstOk cCfg1 (99 / 100) cData [] cStream).bestInliers.length ∧
    (finalState cEstOk cCfg1 (99 / 100) cData [] cStream).bestInliers ≠ [] ∧
    Compute cEstOk cCfg1 (99 / 100) cData [] cStream =
      (cEstOk.fit ((finalState cEstOk cCfg1 (99 / 100) cData [] cStream).bestInliers.map
          fun i => (cData ++ []).getD i dummyPoint6),
       some (((finalState cEstOk cCfg1 (99 / 100) cData [] cStream).bestInliers.length : ℚ) /
           (cData.length : ℚ),
         Real.sqrt (((inlierSumSq cEstOk
             (finalState cEstOk cCfg1 (99 / 100) cData [] cStream).bestParams
             (cData ++ []) : ℚ) : ℝ) /
           ((finalState cEstOk cCfg1 (99 / 100) cData [] cStream).bestInliers.length : ℝ)))) := by
  have h1 : cCfg1.minimalForEstimate ≤
      (finalState cEstOk cCfg1 (99 / 100) cData [] cStream).bestInliers.length := by
    rw [finalState_cEstOk_inliers]
    decide
  have h2 : (finalState cEstOk cCfg1 (99 / 100) cData [] cStream).bestInliers ≠ [] := by
    rw [finalState_cEstOk_inliers]
    decide
  exact ⟨h1, h2, c1_success_report cEstOk cCfg1 (99 / 100) cData [] cStream h1 h2⟩

/-- Claim C4: when no model is ever found (best InlierSet empty or below
minimalForEstimate after all iterations, including the all-outlier case),
Compute returns the empty ParameterVector together with the failure
indicator none, distinct from any successful report. -/
theorem c4_failure_empty (est : Estimator) (cfg : RansacConfig) (p : ℚ)
    (data agreeData : List Point6) (stream : ℕ → List ℕ)
    (hfail : (finalState est cfg p data agreeData stream).bestInliers.length <
        cfg.minimalForEstimate ∨
      (finalState est cfg p data agreeData stream).bestInliers = []) :
    Compute est cfg p data agreeData stream = ([], none) := by
  rw [Compute, if_pos hfail]

/-- Evaluation of the loop on the all-outlier witness instance: after the
single iteration no correspondence agrees, so the best InlierSet stays
empty. -/
theorem finalState_cEstOut_inliers :
    (finalState cEstOut cCfg3 (99 / 100) cData [] cStream).bestInliers = [] := by
  have hstop : ¬ stopCond cCfg3 (initState cCfg3) := by
    simp [stopCond, initState, cCfg3]
  have hfitne : ¬(cEstOut.fit (sampleAt cData cStream (initState cCfg3).iterations) = []) := by
    decide
  have hcnt : ¬((initState cCfg3).bestInliers.length <
      (inlierIndices cEstOut (cEstOut.fit (sampleAt cData cStream (initState cCfg3).iterations))
        (cData ++ [])).length) := by
    decide
  show (runLoop cEstOut cCfg3 (99 / 100) cData [] cStream 1 (initState cCfg3)).bestInliers = []
  rw [runLoop_succ, if_neg hstop, runLoop_zero]
  simp only [ransacStep]
  rw [if_neg hfitne, if_neg hcnt]
  rfl

/-- Witness for claim C4 at a concrete all-outlier instance. -/
theorem c4_failure_empty_witness :
    ((finalState cEstOut cCfg3 (99 / 100) cData [] cStream).bestInliers.length <
        cCfg3.minimalForEstimate ∨
      (finalState cEstOut cCfg3 (99 / 100) cData [] cStream).bestInliers = []) ∧
    Compute cEstOut cCfg3 (99 / 100) cData [] cStream = ([], none) := by
  have h : (finalState cEstOut cCfg3 (99 / 100) cData [] cStream).bestInliers.length <
        cCfg3.minimalForEstimate ∨
      (finalState cEstOut cCfg3 (99 / 100) cData [] cStream).bestInliers = [] :=
    Or.inr finalState_cEstOut_inliers
  exact ⟨h, c4_failure_empty cEstOut cCfg3 (99 / 100) cData [] cStream h⟩

/-- Mapping two functions that agree on the members of a list gives the
same list. -/
theorem map_congr_mem {α β : Type} {l : List α} {f g : α → β}
    (h : ∀ c ∈ l, f c = g c) : l.map f = l.map g := by
  induction l with
  | nil => rfl
  | cons c rest ih =>
    simp only [List.map_cons]
    rw [h c (List.mem_cons_self c rest),
      ih fun d hd => h d (List.mem_cons_of_mem c hd)]

/-- Sum of an affine image of a list: constant part and scaled part. -/
theorem sum_affine {α : Type} (l : List α) (a b : ℚ) (t : α → ℚ) :
    (l.map fun c => a + t c * b).sum = (l.length : ℚ) * a + (l.map t).sum * b := by
  induction l with
  | nil => simp
  | cons c rest ih =>
    simp only [List.map_cons, List.sum_cons, List.length_cons, ih]
    push_cast
    ring

/-- Sum of a list scaled on the right by a constant. -/
theorem sum_scale {α : Type} (l : List α) (g : α → ℚ) (r : ℚ) :
    (l.map fun c => g c * r).sum = (l.map g).sum * r := by
  induction l with
  | nil => simp
  | cons c rest ih =>
    simp only [List.map_cons, List.sum_cons, ih]
    ring

/-- The determinant of a rank-one 3 by 3 matrix vanishes. -/
theorem det3_rank_one (u v : Fin 3 → ℚ) : det3 (fun i j => u i * v j) = 0 := by
  simp only [det3]
  ring

/-- Collinear (or coincident) fixed halves make the cross-covariance
matrix rank-deficient, so Fit returns the empty ParameterVector. -/
theorem fit_degenerate (solve : List Point6 → List ℚ) (corrs : List Point6)
    (p0 v : Fin 3 → ℚ) (t : Point6 → ℚ)
    (hcol : ∀ c ∈ corrs, ∀ i : Fin 3, fixCoord c i = p0 i + t c * v i) :
    Fit solve corrs = [] := by
  have hdet : det3 (ccov corrs) = 0 := by
    cases corrs with
    | nil => simp [det3, ccov]
    | cons c0 rest =>
      have hn : ((c0 :: rest).length : ℚ) ≠ 0 := by
        simp only [List.length_cons]
        exact_mod_cast Nat.succ_ne_zero rest.length
      have hcent : ∀ j : Fin 3, centroidFix (c0 :: rest) j =
          p0 j + ((c0 :: rest).map t).sum / ((c0 :: rest).length : ℚ) * v j := by
        intro j
        rw [centroidFix, map_congr_mem fun c hc => hcol c hc j, sum_affine]
        field_simp
        ring
      have hccov : ∀ i j : Fin 3, ccov (c0 :: rest) i j =
          ((c0 :: rest).map fun c =>
            (movCoord c i - centroidMov (c0 :: rest) i) *
              (t c - ((c0 :: rest).map t).sum / ((c0 :: rest).length : ℚ))).sum * v j := by
        intro i j
        rw [ccov]
        rw [map_congr_mem (g := fun c =>
          ((movCoord c i - centroidMov (c0 :: rest) i) *
            (t c - ((c0 :: rest).map t).sum / ((c0 :: rest).length : ℚ))) * v j)
          (fun c hc => by rw [hcol c hc j, hcent j]; ring)]
        rw [sum_scale]
      have hfun : ccov (c0 :: rest) = fun i j =>
          (((c0 :: rest).map fun c =>
            (movCoord c i - centroidMov (c0 :: rest) i) *
              (t c - ((c0 :: rest).map t).sum / ((c0 :: rest).length : ℚ))).sum) * v j :=
        funext fun i => funext fun j => hccov i j
      rw [hfun]
      exact det3_rank_one _ v
  rw [Fit, if_pos hdet]

/-- Claim C5: a degenerate input to the fitter (fixed halves collinear or
coincident, making the cross-covariance matrix rank-deficient) yields the
empty ParameterVector, and inside the RANSAC loop an iteration whose fit
is empty is discarded locally with zero support (only the iteration
counter advances), never propagated as an error. -/
theorem c5_degenerate_discard (solve : List Point6 → List ℚ) (corrs : List Point6)
    (p0 v : Fin 3 → ℚ) (t : Point6 → ℚ)
    (hcol : ∀ c ∈ corrs, ∀ i : Fin 3, fixCoord c i = p0 i + t c * v i)
    (est : Estimator) (cfg : RansacConfig) (pr : ℚ)
    (data agreeData : List Point6) (stream : ℕ → List ℕ) (st : RState)
    (hfit : est.fit (sampleAt data stream st.iterations) = []) :
    Fit solve corrs = [] ∧
    ransacStep est cfg pr data agreeData stream st =
      { st with iterations := st.iterations + 1 } := by
  constructor
  · exact fit_degenerate solve corrs p0 v t hcol
  · simp only [ransacStep]
    rw [if_pos hfit]

/-- Witness for claim C5 at a concrete instance: a single correspondence
is coincident with itself, and an estimator whose fit is empty. -/
theorem c5_degenerate_discard_witness :
    (∀ c ∈ cCorrs, ∀ i : Fin 3, fixCoord c i = fixCoord cP6 i + 0 * 0) ∧
    cEstFail.fit (sampleAt cData cStream cSt.iterations) = [] ∧
    (Fit cSolve cCorrs = [] ∧
     ransacStep cEstFail cCfg1 (99 / 100) cData [] cStream cSt =
       { cSt with iterations := cSt.iterations + 1 }) := by
  have hcol : ∀ c ∈ cCorrs, ∀ i : Fin 3,
      fixCoord c i = (fun i2 => fixCoord cP6 i2) i + (fun _ => (0 : ℚ)) c * (fun _ => (0 : ℚ)) i := by
    intro c hc i
    have hc2 : c = cP6 := by
      simpa [cCorrs] using hc
    rw [hc2]
    ring
  have hfit : cEstFail.fit (sampleAt cData cStream cSt.iterations) = [] := rfl
  exact ⟨fun c hc i => by simpa using hcol c hc i, hfit,
    c5_degenerate_discard cSolve cCorrs (fun i2 => fixCoord cP6 i2)
      (fun _ => 0) (fun _ => 0) hcol cEstFail cCfg1 (99 / 100) cData [] cStream cSt hfit⟩

/-- Claim C9: Compute is a deterministic function of its inputs and the
injected random stream: two runs with the same data, the same agree set
and the same seeded stream give the identical ParameterVector and the
identical reported metrics. -/
theorem c9_deterministic (est : Estimator) (cfg : RansacConfig) (p : ℚ)
    (data1 data2 agree1 agree2 : List Point6) (s1 s2 : ℕ → List ℕ)
    (hd : data1 = data2) (ha : agree1 = agree2) (hs : s1 = s2) :
    (Compute est cfg p data1 agree1 s1).1 = (Compute est cfg p data2 agree2 s2).1 ∧
    (Compute est cfg p data1 agree1 s1).2 = (Compute est cfg p data2 agree2 s2).2 := by
  subst hd; subst ha; subst hs
  exact ⟨rfl, rfl⟩

/-- Witness for claim C9 at a concrete instance. -/
theorem c9_deterministic_witness :
    cData = cData ∧ ([] : List Point6) = [] ∧ cStream = cStream ∧
    ((Compute cEstOk cCfg1 (99 / 100) cData [] cStream).1 =
      (Compute cEstOk cCfg1 (99 / 100) cData [] cStream).1 ∧
     (Compute cEstOk cCfg1 (99 / 100) cData [] cStream).2 =
      (Compute cEstOk cCfg1 (99 / 100) cData [] cStream).2) :=
  ⟨rfl, rfl, rfl,
   c9_deterministic cEstOk cCfg1 (99 / 100) cData cData [] [] cStream cStream rfl rfl rfl⟩

/-- Claim C3: Agree applies the fitted transform to the fixed half of the
correspondence, takes the squared Euclidean distance to the moving half,
and returns true exactly when that squared distance is at most the square
of the configured inlier threshold delta. -/
theorem c3_agree_threshold (applyT : List ℚ → Point3 → Point3)
    (solve : List Point6 → List ℚ) (d0 d : ℚ) (params : List ℚ) (c : Point6) :
    (SetDelta (LandmarkRegistrationEstimator applyT solve d0) d).Agree params c = true ↔
      sqDist3 (applyT params (fixedHalf c)) (movingHalf c) ≤ d ^ 2 := by
  show decide (sqDist3 (applyT params (fixedHalf c)) (movingHalf c) ≤ d * d) = true ↔ _
  rw [decide_eq_true_eq, pow_two]

/-- Claim C7: the inlier threshold is stored internally as its square;
for non-negative delta, GetDelta after SetDelta returns delta; GetDelta
is always non-negative; and the inlier comparison is performed against
delta squared (no square root in the predicate). -/
theorem c7_delta_roundtrip (est : Estimator) (d : ℚ) (hd : 0 ≤ d) :
    GetDelta (SetDelta est d) = ((d : ℚ) : ℝ) ∧
    0 ≤ GetDelta est ∧
    ∀ (params : List ℚ) (c : Point6),
      ((SetDelta est d).Agree params c = true ↔ est.residual params c ≤ d ^ 2) := by
  refine ⟨?_, Real.sqrt_nonneg _, ?_⟩
  · show Real.sqrt (((d * d : ℚ) : ℝ)) = ((d : ℚ) : ℝ)
    push_cast
    exact Real.sqrt_mul_self (by exact_mod_cast hd)
  · intro params c
    show decide (est.residual params c ≤ d * d) = true ↔ _
    rw [decide_eq_true_eq, pow_two]

/-- Witness for claim C7 at a concrete instance. -/
theorem c7_delta_roundtrip_witness :
    (0 : ℚ) ≤ 3 ∧
    (GetDelta (SetDelta cEstOk 3) = ((3 : ℚ) : ℝ) ∧
     0 ≤ GetDelta cEstOk ∧
     ∀ (params : List ℚ) (c : Point6),
       ((SetDelta cEstOk 3).Agree params c = true ↔ cEstOk.residual params c ≤ 3 ^ 2)) :=
  ⟨by decide, c7_delta_roundtrip cEstOk 3 (by decide)⟩

/-- Dereferencing a pointer array is mapping the heap over it. -/
theorem derefAll_eq_map (heap : ℕ → Point6) :
    ∀ ptrs : List ℕ, derefAll heap ptrs = ptrs.map heap := by
  intro ptrs
  induction ptrs with
  | nil => rfl
  | cons i rest ih => simp only [derefAll, List.map_cons, ih]

/-- Claim C8: the pointer-array and value-array overloads of Estimate and
of LeastSquaresEstimate produce identical ParameterVectors: running the
pointer overload over a heap equals running the value overload over the
dereferenced values, for any estimation core. -/
theorem c8_calling_conventions (core lsCore : List Point6 → List ℚ)
    (heap : ℕ → Point6) (ptrs : List ℕ) :
    EstimatePtr core heap ptrs = Estimate core (ptrs.map heap) ∧
    LeastSquaresEstimatePtr lsCore heap ptrs = LeastSquaresEstimate lsCore (ptrs.map heap) := by
  constructor
  · show core (derefAll heap ptrs) = core (ptrs.map heap)
    rw [derefAll_eq_map]
  · show lsCore (derefAll heap ptrs) = lsCore (ptrs.map heap)
    rw [derefAll_eq_map]

/-- The pair-building loop produces exactly the indexed pairs in original
order. -/
theorem buildPairs_eq_map (a b : List Point3) :
    ∀ n : ℕ, buildPairs a b n =
      (List.range n).map fun i => pack (getPt3 a i) (getPt3 b i) := by
  intro n
  induction n with
  | zero => rfl
  | succ m ih =>
    simp only [buildPairs, ih, List.range_succ, List.map_append]
    rfl

/-- Claim C10: in GenerateData the shuffled index array is never used to
index the meshes: agreeData is exactly the first min of the two feature
mesh point counts pairs of the full meshes in original mesh index order,
each packed with the fixed point in coordinates 0-2 and the moving point
in coordinates 3-5, and the whole output is independent of the shuffle. -/
theorem c10_generate_data (movingFeature fixedFeature movingAll fixedAll : List Point3)
    (shuffle1 shuffle2 : List ℕ → List ℕ) :
    (GenerateData movingFeature fixedFeature movingAll fixedAll shuffle1).2 =
      (List.range (min fixedFeature.length movingFeature.length)).map
        (fun i => pack (getPt3 fixedAll i) (getPt3 movingAll i)) ∧
    GenerateData movingFeature fixedFeature movingAll fixedAll shuffle1 =
      GenerateData movingFeature fixedFeature movingAll fixedAll shuffle2 := by
  constructor
  · show buildPairs fixedAll movingAll (min fixedFeature.length movingFeature.length) = _
    exact buildPairs_eq_map fixedAll movingAll _
  · rfl

end ITKRansac
